import Mathlib

/-!
Verification development for the bulk cache of the Linear Terraform provider
(`internal/provider/bulk_cache.go`).

The Go file implements four lazily populated, memoized category caches
(issue labels, workflow states, templates, teams). Each cache is populated
by a paginated traversal of a remote list endpoint; the result (a map from
identifier to record, or a sticky error) becomes the terminal state of the
category for the process lifetime, and lookups are served from it.

The embedding below is a direct translation of `bulk_cache.go`:
Go maps become association lists with overwrite-on-insert semantics,
the remote client becomes an oracle `Option String → Except String (Page α)`
mapping a continuation cursor to a page response or a transport error,
the unbounded `for` loop becomes a fuel-indexed recursion returning `none`
when the fuel does not suffice (the Go loop would still be running), and
the Go `(*T, error)` return pairs become `Option α × Option String`.
The `sync.Once` gate is not modelled as a scheduler; instead each
`ensureX` function computes the terminal category state produced by the
single execution of the once-body, which is the state all lookups observe.
-/

set_option autoImplicit false

namespace BulkCacheModel

/-- Modelled from the spec (§3, §6): an issue label record, an opaque remote
resource identified by a unique identifier string. The concrete Go struct is
genqlient-generated code outside `bulk_cache.go`; only the `Id` field is
used by the cache. -/
structure IssueLabel where
  id : String
  name : String
deriving DecidableEq, Repr

/-- Modelled from the spec (§3): the owning-team reference embedded in a
workflow-state record (`ws.Team.Id` in the source). -/
structure WorkflowStateTeam where
  id : String
deriving DecidableEq, Repr

/-- Modelled from the spec (§3, §6): a workflow-state record; carries a
foreign reference to an owning team identifier. -/
structure WorkflowState where
  id : String
  name : String
  team : WorkflowStateTeam
deriving DecidableEq, Repr

/-- Modelled from the spec (§3, §6): a template record. -/
structure Template where
  id : String
  name : String
deriving DecidableEq, Repr

/-- Modelled from the spec (§3, §6): a team record; exposes a secondary
human-readable key used as the lookup axis of the teams cache. -/
structure Team where
  id : String
  key : String
  name : String
deriving DecidableEq, Repr

/-- Modelled from the spec (§6): the single-page list operation result,
`{ items, nextCursor, hasMore }`. In the source this is the generated
response shape `resp.X.Nodes`, `resp.X.PageInfo.HasNextPage`,
`resp.X.PageInfo.EndCursor`. -/
structure Page (α : Type) where
  nodes : List α
  hasNextPage : Bool
  endCursor : String
deriving DecidableEq, Repr

/-- A Go `map[string]V` as an association list. The operations below give
it Go map semantics: insert overwrites, lookup returns the stored value. -/
abbrev GoMap (α : Type) : Type := List (String × α)

/-- Lookup in a Go map (`m[k]`): the entry stored under `k`, if any. -/
def mapFind {α : Type} : GoMap α → String → Option α
  | [], _ => none
  | (k, v) :: m, k' => if k = k' then some v else mapFind m k'

/-- Remove every entry stored under `k` (helper for overwrite-insert). -/
def mapErase {α : Type} : GoMap α → String → GoMap α
  | [], _ => []
  | (k, v) :: m, k' => if k = k' then mapErase m k' else (k, v) :: mapErase m k'

/-- Go map assignment `m[k] = v`: overwrites any previous entry under `k`. -/
def mapInsert {α : Type} (m : GoMap α) (k : String) (v : α) : GoMap α :=
  (k, v) :: mapErase m k

/-- The keys of a Go map. -/
def mapKeys {α : Type} (m : GoMap α) : List String :=
  m.map Prod.fst

/-- The stored values of a Go map (the range iterated by `for _, v := range m`). -/
def mapValues {α : Type} (m : GoMap α) : List α :=
  m.map Prod.snd

/-- The body of the per-page merge loop (`for _, node := range resp.X.Nodes
{ m[keyOf(node)] = node }`): insert every node of a page, keyed by `keyOf`. -/
def insertNodes {α : Type} (keyOf : α → String) : GoMap α → List α → GoMap α
  | m, [] => m
  | m, n :: ns => insertNodes keyOf (mapInsert m (keyOf n) n) ns

/-- First-some choice on options (used to state lookup-after-merge lemmas). -/
def optOr {α : Type} : Option α → Option α → Option α
  | some a, _ => some a
  | none, b => b

/-- The last node of `ns` whose key is `k`, if any — the record that survives
Go-map insertion of `ns` in order. -/
def lastMatch {α : Type} (keyOf : α → String) : List α → String → Option α
  | [], _ => none
  | n :: ns, k =>
    match lastMatch keyOf ns k with
    | some r => some r
    | none => if keyOf n = k then some n else none

/-- The paginated populate loop shared by `ensureLabels`,
`ensureWorkflowStates` and `ensureTeams` (the source hand-duplicates it per
category; only the key function and the page oracle differ). Starting from
cursor `cursor` and accumulated map `acc`: request one page; on transport
error, return the partial map together with the sticky error and stop; on
success merge the page's nodes into the map keyed by `keyOf`, stop if the
page reports no further pages, otherwise adopt the page's end cursor and
continue. `fuel` bounds the number of page requests; `none` means the Go
loop would still be running after `fuel` requests. -/
def fetchLoop {α : Type} (fetch : Option String → Except String (Page α))
    (keyOf : α → String) :
    Nat → Option String → GoMap α → Option (GoMap α × Option String)
  | 0, _, _ => none
  | fuel + 1, cursor, acc =>
    match fetch cursor with
    | .error e => some (acc, some e)
    | .ok page =>
      let acc' := insertNodes keyOf acc page.nodes
      if page.hasNextPage then
        fetchLoop fetch keyOf fuel (some page.endCursor) acc'
      else
        some (acc', none)

/-- The chain of pages the oracle yields along the cursor traversal starting
at `cursor` (nil cursor means "from the start"): the pages a successful run
of `fetchLoop` visits, in order. `none` if a page request fails or `fuel`
runs out before a page reports no further pages. -/
def chainPages {α : Type} (fetch : Option String → Except String (Page α)) :
    Nat → Option String → Option (List (Page α))
  | 0, _ => none
  | fuel + 1, cursor =>
    match fetch cursor with
    | .error _ => none
    | .ok page =>
      if page.hasNextPage then
        (chainPages fetch fuel (some page.endCursor)).map (fun pgs => page :: pgs)
      else
        some [page]

/-- The terminal state of one category cache after its once-body has run:
the `labels` / `workflowStates` / `templates` / `teamsByKey` map field
(`none` when the Go field is still a nil map) and the sticky error field. -/
structure CategoryState (α : Type) where
  items : Option (GoMap α)
  err : Option String
deriving DecidableEq, Repr

/-- The terminal labels-cache state produced by the once-body of
`ensureLabels`: `c.labels` is made before the loop, so `items` is set even
on the error path (partially collected items are retained, never exposed). -/
def ensureLabels (fetch : Option String → Except String (Page IssueLabel))
    (fuel : Nat) : Option (CategoryState IssueLabel) :=
  match fetchLoop fetch IssueLabel.id fuel none [] with
  | none => none
  | some (m, e) => some { items := some m, err := e }

/-- The terminal workflow-states-cache state produced by the once-body of
`ensureWorkflowStates`; the map is keyed by `ws.Id`. -/
def ensureWorkflowStates
    (fetch : Option String → Except String (Page WorkflowState))
    (fuel : Nat) : Option (CategoryState WorkflowState) :=
  match fetchLoop fetch WorkflowState.id fuel none [] with
  | none => none
  | some (m, e) => some { items := some m, err := e }

/-- The terminal teams-cache state produced by the once-body of
`ensureTeams`; the map is keyed by the secondary key `team.Key`,
not by `team.Id`. -/
def ensureTeams (fetch : Option String → Except String (Page Team))
    (fuel : Nat) : Option (CategoryState Team) :=
  match fetchLoop fetch Team.key fuel none [] with
  | none => none
  | some (m, e) => some { items := some m, err := e }

/-- The terminal templates-cache state produced by the once-body of
`ensureTemplates`. Templates use the whole-list operation
`listAllTemplates` (no pagination), and `c.templates` is made only after a
successful fetch, so on error the map field stays nil. -/
def ensureTemplates (fetch : Except String (List Template)) :
    CategoryState Template :=
  match fetch with
  | .error e => { items := none, err := some e }
  | .ok nodes => { items := some (insertNodes Template.id [] nodes), err := none }

/-- Shared shape of the four lookup bodies: if the sticky error is set
return it; otherwise look the key up in the map (a nil map finds nothing,
as in Go) and return the record or the category's not-found error. -/
def lookupSlot {α : Type} (st : CategoryState α) (key : String)
    (notFound : String) : Option α × Option String :=
  match st.err with
  | some e => (none, some e)
  | none =>
    match (match st.items with | some m => mapFind m key | none => none) with
    | some v => (some v, none)
    | none => (none, some notFound)

/-- The not-found error message of `GetLabel`. -/
def labelNotFoundMsg (id : String) : String :=
  "label not found in bulk cache: " ++ id

/-- The not-found error message of `GetWorkflowState`. -/
def workflowStateNotFoundMsg (id : String) : String :=
  "workflow state not found in bulk cache: " ++ id

/-- The not-found error message of `GetTemplate`. -/
def templateNotFoundMsg (id : String) : String :=
  "template not found in bulk cache: " ++ id

/-- The not-found error message of `GetTeamByKey`. -/
def teamNotFoundMsg (key : String) : String :=
  "team not found in bulk cache: " ++ key

/-- `GetLabel` after `ensureLabels` has run: serve from the terminal labels
state. Returns the Go pair `(label, err)`. -/
def GetLabel (st : CategoryState IssueLabel) (id : String) :
    Option IssueLabel × Option String :=
  lookupSlot st id (labelNotFoundMsg id)

/-- `GetWorkflowState` after `ensureWorkflowStates` has run. -/
def GetWorkflowState (st : CategoryState WorkflowState) (id : String) :
    Option WorkflowState × Option String :=
  lookupSlot st id (workflowStateNotFoundMsg id)

/-- `GetTemplate` after `ensureTemplates` has run. -/
def GetTemplate (st : CategoryState Template) (id : String) :
    Option Template × Option String :=
  lookupSlot st id (templateNotFoundMsg id)

/-- `GetTeamByKey` after `ensureTeams` has run: keyed by the secondary team
key. -/
def GetTeamByKey (st : CategoryState Team) (key : String) :
    Option Team × Option String :=
  lookupSlot st key (teamNotFoundMsg key)

/-- `GetWorkflowStatesByTeamID` after `ensureWorkflowStates` has run:
propagate the sticky error, otherwise scan the map's values and return
value copies of every workflow state whose owning team identifier equals
`teamID` (an empty list when none match, with no error). -/
def GetWorkflowStatesByTeamID (st : CategoryState WorkflowState)
    (teamID : String) : List WorkflowState × Option String :=
  match st.err with
  | some e => ([], some e)
  | none =>
    ((mapValues (match st.items with | some m => m | none => [])).filter
      (fun ws => ws.team.id == teamID), none)

/-! ### Concrete fixtures

Small concrete datasets and page oracles used to exercise the theorems on
closed inputs. -/

/-- Cursor returned by the first labels page. -/
def cursorA : String := "A"

/-- Cursor returned by the second labels page. -/
def cursorB : String := "B"

/-- Error answered by a fixture oracle to a cursor it does not expect. -/
def unexpectedCursorMsg : String := "unexpected cursor"

/-- Transport error used by the failing fixture oracles. -/
def transportErrMsg : String := "transport failure"

def lblA1 : IssueLabel := { id := "L1", name := "alpha" }

def lblA2 : IssueLabel := { id := "L2", name := "beta" }

def lblB1 : IssueLabel := { id := "L3", name := "gamma" }

def lblC1 : IssueLabel := { id := "L4", name := "delta" }

def labelsPageA : Page IssueLabel :=
  { nodes := [lblA1, lblA2], hasNextPage := true, endCursor := cursorA }

def labelsPageB : Page IssueLabel :=
  { nodes := [lblB1], hasNextPage := true, endCursor := cursorB }

def labelsPageC : Page IssueLabel :=
  { nodes := [lblC1], hasNextPage := false, endCursor := "" }

/-- A three-page labels dataset with disjoint identifiers
(cursors none → A → B → done). -/
def labelsFetch3 (c : Option String) : Except String (Page IssueLabel) :=
  if c = none then .ok labelsPageA
  else if c = some cursorA then .ok labelsPageB
  else if c = some cursorB then .ok labelsPageC
  else .error unexpectedCursorMsg

def labelPages3 : List (Page IssueLabel) := [labelsPageA, labelsPageB, labelsPageC]

def labelNodes3 : List IssueLabel := [lblA1, lblA2, lblB1, lblC1]

def labelsState3 : CategoryState IssueLabel :=
  { items := some (insertNodes IssueLabel.id [] labelNodes3), err := none }

/-- A labels oracle that serves page one and fails on page two. -/
def labelsFetchFail (c : Option String) : Except String (Page IssueLabel) :=
  if c = none then .ok labelsPageA else .error transportErrMsg

def labelsStateFail : CategoryState IssueLabel :=
  { items := some (insertNodes IssueLabel.id [] [lblA1, lblA2]),
    err := some transportErrMsg }

/-- A labels oracle whose single page is empty with no further pages. -/
def labelsFetchEmpty (c : Option String) : Except String (Page IssueLabel) :=
  if c = none then .ok { nodes := [], hasNextPage := false, endCursor := "" }
  else .error unexpectedCursorMsg

def lblDup1 : IssueLabel := { id := "L1", name := "old" }

def lblDup2 : IssueLabel := { id := "L1", name := "new" }

def dupPageA : Page IssueLabel :=
  { nodes := [lblDup1], hasNextPage := true, endCursor := cursorA }

def dupPageB : Page IssueLabel :=
  { nodes := [lblDup2], hasNextPage := false, endCursor := "" }

/-- A two-page labels dataset where the same identifier appears on both
pages (the second record must win). -/
def labelsFetchDup (c : Option String) : Except String (Page IssueLabel) :=
  if c = none then .ok dupPageA
  else if c = some cursorA then .ok dupPageB
  else .error unexpectedCursorMsg

def labelsStateDup : CategoryState IssueLabel :=
  { items := some (insertNodes IssueLabel.id [] [lblDup1, lblDup2]), err := none }

/-- The empty end cursor. -/
def emptyCursor : String := ""

def wsT1a : WorkflowState := { id := "W1", name := "todo", team := { id := "T1" } }

def wsT1b : WorkflowState := { id := "W2", name := "doing", team := { id := "T1" } }

def wsT2 : WorkflowState := { id := "W3", name := "done", team := { id := "T2" } }

def wsNodes1 : List WorkflowState := [wsT1a, wsT1b, wsT2]

def wsPage1 : Page WorkflowState :=
  { nodes := wsNodes1, hasNextPage := false, endCursor := "" }

def wsPages1 : List (Page WorkflowState) := [wsPage1]

/-- A single-page workflow-states dataset with owning teams T1, T1, T2. -/
def wsFetch1 (c : Option String) : Except String (Page WorkflowState) :=
  if c = none then .ok wsPage1
  else .error unexpectedCursorMsg

def wsState1 : CategoryState WorkflowState :=
  { items := some (insertNodes WorkflowState.id [] wsNodes1), err := none }

/-- A workflow-states oracle that fails on its first page. -/
def wsFetchFail (c : Option String) : Except String (Page WorkflowState) :=
  if c = none then .error transportErrMsg else .error unexpectedCursorMsg

def wsStateFail : CategoryState WorkflowState :=
  { items := some [], err := some transportErrMsg }

def tpl1 : Template := { id := "P1", name := "bug report" }

def tpl2 : Template := { id := "P2", name := "feature" }

def tplNodes1 : List Template := [tpl1, tpl2]

def tplState1 : CategoryState Template :=
  { items := some (insertNodes Template.id [] tplNodes1), err := none }

def teamEng : Team := { id := "T1", key := "ENG", name := "Engineering" }

def teamOps : Team := { id := "T2", key := "OPS", name := "Operations" }

def teamNodes1 : List Team := [teamEng, teamOps]

def teamsPage1 : Page Team :=
  { nodes := teamNodes1, hasNextPage := false, endCursor := "" }

def teamsPages1 : List (Page Team) := [teamsPage1]

/-- A single-page teams dataset. -/
def teamsFetch1 (c : Option String) : Except String (Page Team) :=
  if c = none then .ok teamsPage1
  else .error unexpectedCursorMsg

def teamsState1 : CategoryState Team :=
  { items := some (insertNodes Team.key [] teamNodes1), err := none }

/-- A teams oracle that fails on its first page. -/
def teamsFetchFail (c : Option String) : Except String (Page Team) :=
  if c = none then .error transportErrMsg else .error unexpectedCursorMsg

def teamsStateFail : CategoryState Team :=
  { items := some [], err := some transportErrMsg }

/-- Identifiers and keys the witnesses look up. -/
def keyL1 : String := "L1"

def keyL3 : String := "L3"

def keyL9 : String := "L9"

def keyW2 : String := "W2"

def keyW9 : String := "W9"

def keyP1 : String := "P1"

def keyP9 : String := "P9"

def keyENG : String := "ENG"

def keyZZZ : String := "ZZZ"

def keyT1 : String := "T1"

def keyT3 : String := "T3"

/-! ### Map lemmas -/

theorem optOr_none {α : Type} (o : Option α) : optOr o none = o := by
  cases o <;> rfl

theorem mapFind_erase {α : Type} (m : GoMap α) (k k' : String) :
    mapFind (mapErase m k) k' = if k = k' then none else mapFind m k' := by
  induction m with
  | nil => cases h : decide (k = k') <;> simp_all [mapErase, mapFind]
  | cons p m ih =>
    obtain ⟨k0, v⟩ := p
    by_cases h0 : k0 = k
    · subst h0
      by_cases h1 : k0 = k'
      · subst h1; simp [mapErase, ih]
      · simp [mapErase, mapFind, h1, ih]
    · by_cases h1 : k0 = k'
      · subst h1
        have : ¬ k = k0 := fun h => h0 h.symm
        simp [mapErase, mapFind, h0, this, ih]
      · simp [mapErase, mapFind, h0, h1, ih]

theorem mapFind_insert {α : Type} (m : GoMap α) (k k' : String) (v : α) :
    mapFind (mapInsert m k v) k' = if k = k' then some v else mapFind m k' := by
  by_cases h : k = k' <;> simp [mapInsert, mapFind, mapFind_erase, h]

theorem mapErase_of_notMem {α : Type} (m : GoMap α) (k : String)
    (h : k ∉ mapKeys m) : mapErase m k = m := by
  induction m with
  | nil => rfl
  | cons p m ih =>
    obtain ⟨k0, v⟩ := p
    simp only [mapKeys, List.map_cons, List.mem_cons] at h
    push_neg at h
    have h0 : ¬ k0 = k := fun hk => h.1 hk.symm
    simp [mapErase, h0, ih (by simpa [mapKeys] using h.2)]

theorem mapInsert_of_notMem {α : Type} (m : GoMap α) (k : String) (v : α)
    (h : k ∉ mapKeys m) : mapInsert m k v = (k, v) :: m := by
  simp [mapInsert, mapErase_of_notMem m k h]

/-! ### insertNodes lemmas -/

theorem insertNodes_append {α : Type} (keyOf : α → String) (m : GoMap α)
    (xs ys : List α) :
    insertNodes keyOf m (xs ++ ys) = insertNodes keyOf (insertNodes keyOf m xs) ys := by
  induction xs generalizing m with
  | nil => rfl
  | cons n ns ih => simp [insertNodes, ih]

theorem mapFind_insertNodes {α : Type} (keyOf : α → String) (ns : List α)
    (m : GoMap α) (k : String) :
    mapFind (insertNodes keyOf m ns) k = optOr (lastMatch keyOf ns k) (mapFind m k) := by
  induction ns generalizing m with
  | nil => rfl
  | cons n ns ih =>
    simp only [insertNodes, lastMatch, ih, mapFind_insert]
    cases lastMatch keyOf ns k with
    | some r => rfl
    | none =>
      by_cases h : keyOf n = k <;> simp [optOr, h]

theorem lastMatch_mem {α : Type} (keyOf : α → String) (ns : List α)
    (k : String) (r : α) (h : lastMatch keyOf ns k = some r) :
    keyOf r = k ∧ r ∈ ns := by
  induction ns with
  | nil => simp [lastMatch] at h
  | cons n ns ih =>
    simp only [lastMatch] at h
    cases h' : lastMatch keyOf ns k with
    | some r' =>
      rw [h'] at h
      injection h with h
      subst h
      obtain ⟨hk, hm⟩ := ih h'
      exact ⟨hk, List.mem_cons_of_mem n hm⟩
    | none =>
      rw [h'] at h
      by_cases hn : keyOf n = k
      · rw [if_pos hn] at h
        injection h with h
        subst h
        exact ⟨hn, List.mem_cons_self n ns⟩
      · simp [hn] at h

theorem lastMatch_eq_none_iff {α : Type} (keyOf : α → String) (ns : List α)
    (k : String) : lastMatch keyOf ns k = none ↔ k ∉ ns.map keyOf := by
  induction ns with
  | nil => simp [lastMatch]
  | cons n ns ih =>
    constructor
    · intro h hk
      simp only [lastMatch] at h
      cases h' : lastMatch keyOf ns k with
      | some r => rw [h'] at h; cases h
      | none =>
        rw [h'] at h
        have hns : k ∉ ns.map keyOf := ih.mp h'
        simp only [List.map_cons, List.mem_cons] at hk
        rcases hk with hk | hk
        · rw [hk] at h
          simp at h
        · exact hns hk
    · intro hk
      simp only [List.map_cons, List.mem_cons] at hk
      push_neg at hk
      have hns : lastMatch keyOf ns k = none := ih.mpr hk.2
      have hnk : ¬ keyOf n = k := fun h => hk.1 h.symm
      simp [lastMatch, hns, hnk]

theorem lastMatch_of_nodup {α : Type} (keyOf : α → String) (ns : List α)
    (r : α) (hnd : (ns.map keyOf).Nodup) (hr : r ∈ ns) :
    lastMatch keyOf ns (keyOf r) = some r := by
  induction ns with
  | nil => cases hr
  | cons n ns ih =>
    simp only [List.map_cons, List.nodup_cons] at hnd
    rcases List.mem_cons.mp hr with h | h
    · subst h
      have : lastMatch keyOf ns (keyOf r) = none :=
        (lastMatch_eq_none_iff keyOf ns (keyOf r)).mpr hnd.1
      simp [lastMatch, this]
    · have := ih hnd.2 h
      simp [lastMatch, this]

theorem length_insertNodes_of_nodup {α : Type} (keyOf : α → String)
    (ns : List α) (m : GoMap α) (hnd : (ns.map keyOf).Nodup)
    (hdisj : ∀ k, k ∈ ns.map keyOf → k ∉ mapKeys m) :
    (insertNodes keyOf m ns).length = m.length + ns.length := by
  induction ns generalizing m with
  | nil => rfl
  | cons n ns ih =>
    simp only [List.map_cons, List.nodup_cons] at hnd
    have hmem : keyOf n ∉ mapKeys m :=
      hdisj (keyOf n) (by simp)
    have hins : mapInsert m (keyOf n) n = (keyOf n, n) :: m :=
      mapInsert_of_notMem m (keyOf n) n hmem
    have hdisj' : ∀ k, k ∈ ns.map keyOf → k ∉ mapKeys (mapInsert m (keyOf n) n) := by
      intro k hk
      rw [hins]
      simp only [mapKeys, List.map_cons, List.mem_cons]
      push_neg
      refine ⟨fun h => hnd.1 (h ▸ hk), ?_⟩
      simpa [mapKeys] using hdisj k (by simp [hk])
    have := ih (mapInsert m (keyOf n) n) hnd.2 hdisj'
    rw [hins] at this
    simp only [insertNodes, hins, this, List.length_cons]
    omega

/-! ### fetchLoop lemmas -/

theorem fetchLoop_error {α : Type} (fetch : Option String → Except String (Page α))
    (keyOf : α → String) (fuel : Nat) (cursor : Option String) (acc : GoMap α)
    (e : String) (h : fetch cursor = .error e) :
    fetchLoop fetch keyOf (fuel + 1) cursor acc = some (acc, some e) := by
  simp [fetchLoop, h]

theorem fetchLoop_ok_iff {α : Type}
    (fetch : Option String → Except String (Page α)) (keyOf : α → String) :
    ∀ (fuel : Nat) (cursor : Option String) (acc m : GoMap α),
    fetchLoop fetch keyOf fuel cursor acc = some (m, none) ↔
      ∃ pgs, chainPages fetch fuel cursor = some pgs ∧
        m = insertNodes keyOf acc (pgs.flatMap Page.nodes) := by
  intro fuel
  induction fuel with
  | zero =>
    intro cursor acc m
    simp [fetchLoop, chainPages]
  | succ fuel ih =>
    intro cursor acc m
    simp only [fetchLoop, chainPages]
    cases hf : fetch cursor with
    | error e => simp
    | ok page =>
      by_cases hnext : page.hasNextPage = true
      · simp only [if_pos hnext, ih]
        constructor
        · rintro ⟨pgs', hc, hm⟩
          refine ⟨page :: pgs', by rw [hc]; rfl, ?_⟩
          rw [hm, List.flatMap_cons, insertNodes_append]
        · rintro ⟨pgs, hc, hm⟩
          rcases Option.map_eq_some'.mp hc with ⟨pgs', h1, h2⟩
          refine ⟨pgs', h1, ?_⟩
          rw [hm, ← h2, List.flatMap_cons, insertNodes_append]
      · simp only [if_neg hnext]
        have hb : ([page] : List (Page α)).flatMap Page.nodes = page.nodes := by
          simp
        constructor
        · intro h
          simp only [Option.some.injEq, Prod.mk.injEq] at h
          exact ⟨[page], rfl, by rw [← h.1, hb]⟩
        · rintro ⟨pgs, hc, hm⟩
          injection hc with hc
          rw [hm, ← hc, hb]

theorem ensureLabels_destruct
    (fetch : Option String → Except String (Page IssueLabel)) (fuel : Nat)
    (st : CategoryState IssueLabel) (h : ensureLabels fetch fuel = some st) :
    ∃ m e, fetchLoop fetch IssueLabel.id fuel none [] = some (m, e) ∧
      st.items = some m ∧ st.err = e := by
  unfold ensureLabels at h
  cases hf : fetchLoop fetch IssueLabel.id fuel none [] with
  | none => rw [hf] at h; cases h
  | some p =>
    obtain ⟨m, e⟩ := p
    rw [hf] at h
    injection h with h
    subst h
    exact ⟨m, e, rfl, rfl, rfl⟩

theorem ensureWorkflowStates_destruct
    (fetch : Option String → Except String (Page WorkflowState)) (fuel : Nat)
    (st : CategoryState WorkflowState)
    (h : ensureWorkflowStates fetch fuel = some st) :
    ∃ m e, fetchLoop fetch WorkflowState.id fuel none [] = some (m, e) ∧
      st.items = some m ∧ st.err = e := by
  unfold ensureWorkflowStates at h
  cases hf : fetchLoop fetch WorkflowState.id fuel none [] with
  | none => rw [hf] at h; cases h
  | some p =>
    obtain ⟨m, e⟩ := p
    rw [hf] at h
    injection h with h
    subst h
    exact ⟨m, e, rfl, rfl, rfl⟩

theorem ensureTeams_destruct
    (fetch : Option String → Except String (Page Team)) (fuel : Nat)
    (st : CategoryState Team) (h : ensureTeams fetch fuel = some st) :
    ∃ m e, fetchLoop fetch Team.key fuel none [] = some (m, e) ∧
      st.items = some m ∧ st.err = e := by
  unfold ensureTeams at h
  cases hf : fetchLoop fetch Team.key fuel none [] with
  | none => rw [hf] at h; cases h
  | some p =>
    obtain ⟨m, e⟩ := p
    rw [hf] at h
    injection h with h
    subst h
    exact ⟨m, e, rfl, rfl, rfl⟩

/-! ### lookupSlot lemmas -/

theorem lookupSlot_err {α : Type} (st : CategoryState α) (key nf e : String)
    (h : st.err = some e) : lookupSlot st key nf = (none, some e) := by
  simp [lookupSlot, h]

theorem lookupSlot_found {α : Type} (st : CategoryState α) (key nf : String)
    (m : GoMap α) (v : α) (he : st.err = none) (hi : st.items = some m)
    (hf : mapFind m key = some v) : lookupSlot st key nf = (some v, none) := by
  simp [lookupSlot, he, hi, hf]

theorem lookupSlot_not_found {α : Type} (st : CategoryState α) (key nf : String)
    (m : GoMap α) (he : st.err = none) (hi : st.items = some m)
    (hf : mapFind m key = none) : lookupSlot st key nf = (none, some nf) := by
  simp [lookupSlot, he, hi, hf]

theorem lookupSlot_exclusive {α : Type} (st : CategoryState α)
    (key nf : String) :
    ((lookupSlot st key nf).1.isSome = true ∧ (lookupSlot st key nf).2 = none) ∨
      ((lookupSlot st key nf).1 = none ∧ (lookupSlot st key nf).2.isSome = true) := by
  unfold lookupSlot
  cases herr : st.err with
  | some e => simp
  | none =>
    cases hit : (match st.items with | some m => mapFind m key | none => none) with
    | some v => simp
    | none => simp

/-! ### Lookup completeness helper -/

theorem mapFind_insertNodes_nil {α : Type} (keyOf : α → String) (ns : List α)
    (k : String) : mapFind (insertNodes keyOf [] ns) k = lastMatch keyOf ns k := by
  rw [mapFind_insertNodes]
  exact optOr_none _

/-- After a successful `fetchLoop` run that visited `pgs`, `lookupSlot` is
complete over the dataset: present keys yield their record, absent keys
yield the not-found error. -/
theorem lookupSlot_complete {α : Type} (keyOf : α → String)
    (st : CategoryState α) (ns : List α)
    (hi : st.items = some (insertNodes keyOf [] ns)) (he : st.err = none)
    (k nf : String) :
    (k ∈ ns.map keyOf →
      ∃ r, lookupSlot st k nf = (some r, none) ∧ keyOf r = k ∧ r ∈ ns) ∧
    (k ∉ ns.map keyOf → lookupSlot st k nf = (none, some nf)) := by
  constructor
  · intro hmem
    cases hr : lastMatch keyOf ns k with
    | none => exact absurd hmem ((lastMatch_eq_none_iff keyOf ns k).mp hr)
    | some r =>
      obtain ⟨hk, hm⟩ := lastMatch_mem keyOf ns k r hr
      have hf : mapFind (insertNodes keyOf [] ns) k = some r := by
        rw [mapFind_insertNodes_nil, hr]
      exact ⟨r, lookupSlot_found st k nf _ r he hi hf, hk, hm⟩
  · intro hmem
    have hf : mapFind (insertNodes keyOf [] ns) k = none := by
      rw [mapFind_insertNodes_nil, (lastMatch_eq_none_iff keyOf ns k).mpr hmem]
    exact lookupSlot_not_found st k nf _ he hi hf

/-- A successful page chain forces the loop result: sticky error `none` and
the map assembled from all visited pages. -/
theorem fetchLoop_of_chain {α : Type}
    (fetch : Option String → Except String (Page α)) (keyOf : α → String)
    (fuel : Nat) (m : GoMap α) (e : Option String) (pgs : List (Page α))
    (hl : fetchLoop fetch keyOf fuel none [] = some (m, e))
    (hc : chainPages fetch fuel none = some pgs) :
    e = none ∧ m = insertNodes keyOf [] (pgs.flatMap Page.nodes) := by
  have h2 : fetchLoop fetch keyOf fuel none [] =
      some (insertNodes keyOf [] (pgs.flatMap Page.nodes), none) :=
    (fetchLoop_ok_iff fetch keyOf fuel none [] _).mpr ⟨pgs, hc, rfl⟩
  rw [hl] at h2
  injection h2 with h2
  injection h2 with h3 h4
  exact ⟨h4, h3⟩

/-! ### Claim theorems -/

/-- Claim C1: after a category's populate routine completes successfully (the
page chain ends with a page reporting no further pages, no transport
error), `GetLabel`, `GetWorkflowState` and `GetTemplate` return, for every
identifier present in the fetched dataset, the matching record, and for
any identifier not present they return the category's not-found error;
`GetTeamByKey` satisfies the same contract over the secondary team key. -/
theorem claim1_lookup_complete_after_population :
    (∀ (fetch : Option String → Except String (Page IssueLabel)) (fuel : Nat)
       (st : CategoryState IssueLabel) (pgs : List (Page IssueLabel)),
      ensureLabels fetch fuel = some st →
      chainPages fetch fuel none = some pgs →
      ∀ id,
        (id ∈ (pgs.flatMap Page.nodes).map IssueLabel.id →
          ∃ r, GetLabel st id = (some r, none) ∧ r.id = id ∧
            r ∈ pgs.flatMap Page.nodes) ∧
        (id ∉ (pgs.flatMap Page.nodes).map IssueLabel.id →
          GetLabel st id = (none, some (labelNotFoundMsg id)))) ∧
    (∀ (fetch : Option String → Except String (Page WorkflowState)) (fuel : Nat)
       (st : CategoryState WorkflowState) (pgs : List (Page WorkflowState)),
      ensureWorkflowStates fetch fuel = some st →
      chainPages fetch fuel none = some pgs →
      ∀ id,
        (id ∈ (pgs.flatMap Page.nodes).map WorkflowState.id →
          ∃ r, GetWorkflowState st id = (some r, none) ∧ r.id = id ∧
            r ∈ pgs.flatMap Page.nodes) ∧
        (id ∉ (pgs.flatMap Page.nodes).map WorkflowState.id →
          GetWorkflowState st id = (none, some (workflowStateNotFoundMsg id)))) ∧
    (∀ (nodes : List Template) (id : String),
        (id ∈ nodes.map Template.id →
          ∃ r, GetTemplate (ensureTemplates (.ok nodes)) id = (some r, none) ∧
            r.id = id ∧ r ∈ nodes) ∧
        (id ∉ nodes.map Template.id →
          GetTemplate (ensureTemplates (.ok nodes)) id =
            (none, some (templateNotFoundMsg id)))) ∧
    (∀ (fetch : Option String → Except String (Page Team)) (fuel : Nat)
       (st : CategoryState Team) (pgs : List (Page Team)),
      ensureTeams fetch fuel = some st →
      chainPages fetch fuel none = some pgs →
      ∀ key,
        (key ∈ (pgs.flatMap Page.nodes).map Team.key →
          ∃ r, GetTeamByKey st key = (some r, none) ∧ r.key = key ∧
            r ∈ pgs.flatMap Page.nodes) ∧
        (key ∉ (pgs.flatMap Page.nodes).map Team.key →
          GetTeamByKey st key = (none, some (teamNotFoundMsg key)))) := by
  refine ⟨?_, ?_, ?_, ?_⟩
  · intro fetch fuel st pgs hE hC id
    obtain ⟨m, e, hl, hi, he⟩ := ensureLabels_destruct fetch fuel st hE
    obtain ⟨he0, hm⟩ := fetchLoop_of_chain fetch IssueLabel.id fuel m e pgs hl hC
    rw [he0] at he
    rw [hm] at hi
    exact lookupSlot_complete IssueLabel.id st (pgs.flatMap Page.nodes) hi he id
      (labelNotFoundMsg id)
  · intro fetch fuel st pgs hE hC id
    obtain ⟨m, e, hl, hi, he⟩ := ensureWorkflowStates_destruct fetch fuel st hE
    obtain ⟨he0, hm⟩ := fetchLoop_of_chain fetch WorkflowState.id fuel m e pgs hl hC
    rw [he0] at he
    rw [hm] at hi
    exact lookupSlot_complete WorkflowState.id st (pgs.flatMap Page.nodes) hi he id
      (workflowStateNotFoundMsg id)
  · intro nodes id
    exact lookupSlot_complete Template.id (ensureTemplates (.ok nodes)) nodes rfl rfl
      id (templateNotFoundMsg id)
  · intro fetch fuel st pgs hE hC key
    obtain ⟨m, e, hl, hi, he⟩ := ensureTeams_destruct fetch fuel st hE
    obtain ⟨he0, hm⟩ := fetchLoop_of_chain fetch Team.key fuel m e pgs hl hC
    rw [he0] at he
    rw [hm] at hi
    exact lookupSlot_complete Team.key st (pgs.flatMap Page.nodes) hi he key
      (teamNotFoundMsg key)

/-- Witness for C1 on concrete datasets: present identifiers (and the team
key) are found, absent ones yield the not-found error. -/
theorem claim1_lookup_complete_after_population_witness :
    (∃ r, GetLabel labelsState3 keyL3 = (some r, none) ∧ r.id = keyL3 ∧
      r ∈ labelPages3.flatMap Page.nodes) ∧
    GetLabel labelsState3 keyL9 = (none, some (labelNotFoundMsg keyL9)) ∧
    (∃ r, GetWorkflowState wsState1 keyW2 = (some r, none) ∧ r.id = keyW2 ∧
      r ∈ wsPages1.flatMap Page.nodes) ∧
    GetWorkflowState wsState1 keyW9 = (none, some (workflowStateNotFoundMsg keyW9)) ∧
    (∃ r, GetTemplate (ensureTemplates (.ok tplNodes1)) keyP1 = (some r, none) ∧
      r.id = keyP1 ∧ r ∈ tplNodes1) ∧
    GetTemplate (ensureTemplates (.ok tplNodes1)) keyP9 =
      (none, some (templateNotFoundMsg keyP9)) ∧
    (∃ r, GetTeamByKey teamsState1 keyENG = (some r, none) ∧ r.key = keyENG ∧
      r ∈ teamsPages1.flatMap Page.nodes) ∧
    GetTeamByKey teamsState1 keyZZZ = (none, some (teamNotFoundMsg keyZZZ)) := by
  obtain ⟨h1, h2, h3, h4⟩ := claim1_lookup_complete_after_population
  have hL := h1 labelsFetch3 3 labelsState3 labelPages3 (by decide) (by decide)
  have hW := h2 wsFetch1 1 wsState1 wsPages1 (by decide) (by decide)
  have hT := h4 teamsFetch1 1 teamsState1 teamsPages1 (by decide) (by decide)
  exact ⟨(hL keyL3).1 (by decide), (hL keyL9).2 (by decide),
    (hW keyW2).1 (by decide), (hW keyW9).2 (by decide),
    (h3 tplNodes1 keyP1).1 (by decide), (h3 tplNodes1 keyP9).2 (by decide),
    (hT keyENG).1 (by decide), (hT keyZZZ).2 (by decide)⟩

/-- Claim C2: when a page request fails, the error is recorded as the sticky
error of the loop's result and the loop returns at once, leaving the
partial accumulated map unexposed; thereafter every lookup against that
category — for any identifier or key — returns that same stored error and
never an item. -/
theorem claim2_sticky_error :
    (∀ (α : Type) (fetch : Option String → Except String (Page α))
       (keyOf : α → String) (fuel : Nat) (cursor : Option String)
       (acc : GoMap α) (e : String),
      fetch cursor = .error e →
      fetchLoop fetch keyOf (fuel + 1) cursor acc = some (acc, some e)) ∧
    (∀ (fetch : Option String → Except String (Page IssueLabel)) (fuel : Nat)
       (st : CategoryState IssueLabel) (e : String),
      ensureLabels fetch fuel = some st → st.err = some e →
      ∀ id, GetLabel st id = (none, some e)) ∧
    (∀ (fetch : Option String → Except String (Page WorkflowState)) (fuel : Nat)
       (st : CategoryState WorkflowState) (e : String),
      ensureWorkflowStates fetch fuel = some st → st.err = some e →
      ∀ id, GetWorkflowState st id = (none, some e) ∧
        GetWorkflowStatesByTeamID st id = ([], some e)) ∧
    (∀ (e id : String),
      GetTemplate (ensureTemplates (.error e)) id = (none, some e)) ∧
    (∀ (fetch : Option String → Except String (Page Team)) (fuel : Nat)
       (st : CategoryState Team) (e : String),
      ensureTeams fetch fuel = some st → st.err = some e →
      ∀ key, GetTeamByKey st key = (none, some e)) := by
  refine ⟨?_, ?_, ?_, ?_, ?_⟩
  · intro α fetch keyOf fuel cursor acc e h
    exact fetchLoop_error fetch keyOf fuel cursor acc e h
  · intro fetch fuel st e _ he id
    exact lookupSlot_err st id _ e he
  · intro fetch fuel st e _ he id
    exact ⟨lookupSlot_err st id _ e he, by simp [GetWorkflowStatesByTeamID, he]⟩
  · intro e id
    exact lookupSlot_err _ id _ e rfl
  · intro fetch fuel st e _ he key
    exact lookupSlot_err st key _ e he

/-- Witness for C2: a labels oracle that fails on page two aborts the loop
with the partial page-one map and the transport error, and every lookup of
the failed categories — including an identifier collected on page one —
returns that same error. -/
theorem claim2_sticky_error_witness :
    fetchLoop labelsFetchFail IssueLabel.id 1 (some cursorA)
      (insertNodes IssueLabel.id [] [lblA1, lblA2]) =
      some (insertNodes IssueLabel.id [] [lblA1, lblA2], some transportErrMsg) ∧
    GetLabel labelsStateFail keyL1 = (none, some transportErrMsg) ∧
    (GetWorkflowState wsStateFail keyW2 = (none, some transportErrMsg) ∧
      GetWorkflowStatesByTeamID wsStateFail keyW2 = ([], some transportErrMsg)) ∧
    GetTemplate (ensureTemplates (.error transportErrMsg)) keyP1 =
      (none, some transportErrMsg) ∧
    GetTeamByKey teamsStateFail keyENG = (none, some transportErrMsg) := by
  obtain ⟨h1, h2, h3, h4, h5⟩ := claim2_sticky_error
  exact ⟨h1 IssueLabel labelsFetchFail IssueLabel.id 0 (some cursorA)
      (insertNodes IssueLabel.id [] [lblA1, lblA2]) transportErrMsg rfl,
    h2 labelsFetchFail 2 labelsStateFail transportErrMsg (by decide) (by decide) keyL1,
    h3 wsFetchFail 1 wsStateFail transportErrMsg (by decide) (by decide) keyW2,
    h4 transportErrMsg keyP1,
    h5 teamsFetchFail 1 teamsStateFail transportErrMsg (by decide) (by decide) keyENG⟩

/-- Claim C3: the populate loop starts from the nil cursor, requests one page at
a time, stops at a page with no further pages and otherwise adopts its end
cursor (the traversal recorded by `chainPages`); on success the assembled
mapping is the Go-map fold of all visited pages' items in order — their
union — and when identifiers are disjoint across pages its size equals the
total item count. -/
theorem claim3_pagination_assembly
    (fetch : Option String → Except String (Page IssueLabel)) (fuel : Nat)
    (st : CategoryState IssueLabel) (pgs : List (Page IssueLabel))
    (hE : ensureLabels fetch fuel = some st)
    (hC : chainPages fetch fuel none = some pgs) :
    st.err = none ∧
    st.items = some (insertNodes IssueLabel.id [] (pgs.flatMap Page.nodes)) ∧
    (((pgs.flatMap Page.nodes).map IssueLabel.id).Nodup →
      ∃ m, st.items = some m ∧ m.length = (pgs.flatMap Page.nodes).length) := by
  obtain ⟨m, e, hl, hi, he⟩ := ensureLabels_destruct fetch fuel st hE
  obtain ⟨he0, hm⟩ := fetchLoop_of_chain fetch IssueLabel.id fuel m e pgs hl hC
  rw [hm] at hi
  refine ⟨by rw [he, he0], hi, ?_⟩
  intro hnd
  refine ⟨_, hi, ?_⟩
  have hlen := length_insertNodes_of_nodup IssueLabel.id (pgs.flatMap Page.nodes)
    [] hnd (by intro k _; simp [mapKeys])
  simpa using hlen

/-- Witness for C3 on the three-page labels dataset: the state is the
union of the three pages and has size 4, the total item count. -/
theorem claim3_pagination_assembly_witness :
    labelsState3.err = none ∧
    labelsState3.items =
      some (insertNodes IssueLabel.id [] (labelPages3.flatMap Page.nodes)) ∧
    (∃ m, labelsState3.items = some m ∧
      m.length = (labelPages3.flatMap Page.nodes).length) := by
  have h := claim3_pagination_assembly labelsFetch3 3 labelsState3 labelPages3
    (by decide) (by decide)
  exact ⟨h.1, h.2.1, h.2.2 (by decide)⟩

/-- Claim C5: after successful population, `GetWorkflowStatesByTeamID` returns
exactly the cached workflow states whose owning team identifier equals the
requested team id, an empty list with no error when none match, and the
sticky category error when it is set. -/
theorem claim5_list_by_team_id :
    (∀ (fetch : Option String → Except String (Page WorkflowState)) (fuel : Nat)
       (st : CategoryState WorkflowState) (m : GoMap WorkflowState)
       (teamID : String),
      ensureWorkflowStates fetch fuel = some st →
      st.err = none → st.items = some m →
      (GetWorkflowStatesByTeamID st teamID).2 = none ∧
      (∀ ws, ws ∈ (GetWorkflowStatesByTeamID st teamID).1 ↔
        ws ∈ mapValues m ∧ ws.team.id = teamID) ∧
      ((∀ ws ∈ mapValues m, ws.team.id ≠ teamID) →
        (GetWorkflowStatesByTeamID st teamID).1 = [])) ∧
    (∀ (st : CategoryState WorkflowState) (e teamID : String),
      st.err = some e → GetWorkflowStatesByTeamID st teamID = ([], some e)) := by
  constructor
  · intro fetch fuel st m teamID _ he hi
    have hg : GetWorkflowStatesByTeamID st teamID =
        ((mapValues m).filter (fun ws => ws.team.id == teamID), none) := by
      simp [GetWorkflowStatesByTeamID, he, hi]
    refine ⟨by rw [hg], ?_, ?_⟩
    · intro ws
      rw [hg]
      simp [List.mem_filter]
    · intro hnone
      rw [hg]
      simp only [List.filter_eq_nil_iff]
      intro ws hws
      simpa using hnone ws hws
  · intro st e teamID he
    simp [GetWorkflowStatesByTeamID, he]

/-- Witness for C5 on the `{T1, T1, T2}` dataset: `T1` yields exactly the
two T1-owned records, `T3` yields the empty list with no error, and a
failed category propagates its sticky error. -/
theorem claim5_list_by_team_id_witness :
    (GetWorkflowStatesByTeamID wsState1 keyT1).2 = none ∧
    (wsT1a ∈ (GetWorkflowStatesByTeamID wsState1 keyT1).1 ∧
      wsT1b ∈ (GetWorkflowStatesByTeamID wsState1 keyT1).1 ∧
      wsT2 ∉ (GetWorkflowStatesByTeamID wsState1 keyT1).1) ∧
    (GetWorkflowStatesByTeamID wsState1 keyT3).1 = [] ∧
    GetWorkflowStatesByTeamID wsStateFail keyT1 = ([], some transportErrMsg) := by
  obtain ⟨h1, h2⟩ := claim5_list_by_team_id
  have hT1 := h1 wsFetch1 1 wsState1 (insertNodes WorkflowState.id [] wsNodes1)
    keyT1 (by decide) (by decide) (by decide)
  have hT3 := h1 wsFetch1 1 wsState1 (insertNodes WorkflowState.id [] wsNodes1)
    keyT3 (by decide) (by decide) (by decide)
  refine ⟨hT1.1, ⟨?_, ?_, ?_⟩, hT3.2.2 (by decide), h2 wsStateFail transportErrMsg keyT1 (by decide)⟩
  · exact (hT1.2.1 wsT1a).mpr (by decide)
  · exact (hT1.2.1 wsT1b).mpr (by decide)
  · intro hmem
    have := (hT1.2.1 wsT2).mp hmem
    exact absurd this.2 (by decide)

/-- Claim C6: a category whose list operation returns zero items on its single
page with no further pages reaches the successful terminal state — a
populated empty mapping with nil sticky error — and every subsequent
`GetLabel` on that state returns the not-found error, not a transport
error. -/
theorem claim6_empty_category
    (fetch : Option String → Except String (Page IssueLabel)) (fuel : Nat)
    (ec : String)
    (h : fetch none = .ok { nodes := [], hasNextPage := false, endCursor := ec }) :
    ensureLabels fetch (fuel + 1) = some { items := some [], err := none } ∧
    ∀ id, GetLabel { items := some ([] : GoMap IssueLabel), err := none } id =
      (none, some (labelNotFoundMsg id)) := by
  constructor
  · simp [ensureLabels, fetchLoop, h, insertNodes]
  · intro id
    exact lookupSlot_not_found _ id _ [] rfl rfl rfl

/-- Witness for C6: the empty single-page labels oracle populates the empty
mapping with no error, and lookup yields not-found. -/
theorem claim6_empty_category_witness :
    ensureLabels labelsFetchEmpty 1 = some { items := some [], err := none } ∧
    GetLabel { items := some ([] : GoMap IssueLabel), err := none } keyL1 =
      (none, some (labelNotFoundMsg keyL1)) := by
  have h := claim6_empty_category labelsFetchEmpty 0 emptyCursor rfl
  exact ⟨h.1, h.2 keyL1⟩

/-- Claim C7: the teams mapping is keyed by each team's secondary human-readable
key, not its identifier: the populated state is the Go-map fold keyed by
`Team.key`, and when the fetched keys are distinct, `GetTeamByKey` at
`team.key` returns that team record for every fetched team. -/
theorem claim7_teams_keyed_by_key
    (fetch : Option String → Except String (Page Team)) (fuel : Nat)
    (st : CategoryState Team) (pgs : List (Page Team))
    (hE : ensureTeams fetch fuel = some st)
    (hC : chainPages fetch fuel none = some pgs) :
    st.items = some (insertNodes Team.key [] (pgs.flatMap Page.nodes)) ∧
    (((pgs.flatMap Page.nodes).map Team.key).Nodup →
      ∀ t ∈ pgs.flatMap Page.nodes, GetTeamByKey st t.key = (some t, none)) := by
  obtain ⟨m, e, hl, hi, he⟩ := ensureTeams_destruct fetch fuel st hE
  obtain ⟨he0, hm⟩ := fetchLoop_of_chain fetch Team.key fuel m e pgs hl hC
  rw [hm] at hi
  rw [he0] at he
  refine ⟨hi, ?_⟩
  intro hnd t ht
  have hf : mapFind (insertNodes Team.key [] (pgs.flatMap Page.nodes)) t.key
      = some t := by
    rw [mapFind_insertNodes_nil]
    exact lastMatch_of_nodup Team.key _ t hnd ht
  exact lookupSlot_found st t.key _ _ t he hi hf

/-- Witness for C7: on the concrete teams dataset, the populated mapping is
keyed by `Team.key` and both teams are found by their keys. -/
theorem claim7_teams_keyed_by_key_witness :
    teamsState1.items =
      some (insertNodes Team.key [] (teamsPages1.flatMap Page.nodes)) ∧
    GetTeamByKey teamsState1 teamEng.key = (some teamEng, none) ∧
    GetTeamByKey teamsState1 teamOps.key = (some teamOps, none) := by
  have h := claim7_teams_keyed_by_key teamsFetch1 1 teamsState1 teamsPages1
    (by decide) (by decide)
  exact ⟨h.1, h.2 (by decide) teamEng (by decide), h.2 (by decide) teamOps (by decide)⟩

/-- Claim C8: the completed mapping resolves every key to the last node carrying
that key across the concatenated pages, and a match on a later page wins
regardless of what earlier pages contained — a record whose identifier
reappears on a later page silently overwrites the earlier record. -/
theorem claim8_later_page_overwrites :
    (∀ (fetch : Option String → Except String (Page IssueLabel)) (fuel : Nat)
       (st : CategoryState IssueLabel) (pgs : List (Page IssueLabel)) (k : String),
      ensureLabels fetch fuel = some st →
      chainPages fetch fuel none = some pgs →
      ∃ m, st.items = some m ∧
        mapFind m k = lastMatch IssueLabel.id (pgs.flatMap Page.nodes) k) ∧
    (∀ (α : Type) (keyOf : α → String) (ns1 ns2 : List α) (k : String) (r2 : α),
      lastMatch keyOf ns2 k = some r2 →
      lastMatch keyOf (ns1 ++ ns2) k = some r2) := by
  constructor
  · intro fetch fuel st pgs k hE hC
    obtain ⟨m, e, hl, hi, he⟩ := ensureLabels_destruct fetch fuel st hE
    obtain ⟨he0, hm⟩ := fetchLoop_of_chain fetch IssueLabel.id fuel m e pgs hl hC
    refine ⟨m, hi, ?_⟩
    rw [hm, mapFind_insertNodes_nil]
  · intro α keyOf ns1 ns2 k r2 h
    induction ns1 with
    | nil => simpa using h
    | cons n ns ih => simp [lastMatch, ih]

/-- Witness for C8: with identifier `L1` on both pages of the duplicate
dataset, the completed mapping stores the later record (`new`), not the
earlier one (`old`). -/
theorem claim8_later_page_overwrites_witness :
    (∃ m, labelsStateDup.items = some m ∧ mapFind m keyL1 = some lblDup2) ∧
    lastMatch IssueLabel.id ([lblDup1] ++ [lblDup2]) keyL1 = some lblDup2 := by
  obtain ⟨h1, h2⟩ := claim8_later_page_overwrites
  obtain ⟨m, hi, hf⟩ := h1 labelsFetchDup 2 labelsStateDup [dupPageA, dupPageB]
    keyL1 (by decide) (by decide)
  exact ⟨⟨m, hi, by rw [hf]; decide⟩,
    h2 IssueLabel IssueLabel.id [lblDup1] [lblDup2] keyL1 lblDup2 (by decide)⟩

/-- Claim C9: every lookup operation returns exactly one of a non-nil item and a
non-nil error — never both non-nil and never both nil — for every cache
state and every identifier or key. -/
theorem claim9_lookup_exclusive
    (stL : CategoryState IssueLabel) (stW : CategoryState WorkflowState)
    (stT : CategoryState Template) (stM : CategoryState Team) (k : String) :
    (((GetLabel stL k).1.isSome = true ∧ (GetLabel stL k).2 = none) ∨
      ((GetLabel stL k).1 = none ∧ (GetLabel stL k).2.isSome = true)) ∧
    (((GetWorkflowState stW k).1.isSome = true ∧ (GetWorkflowState stW k).2 = none) ∨
      ((GetWorkflowState stW k).1 = none ∧ (GetWorkflowState stW k).2.isSome = true)) ∧
    (((GetTemplate stT k).1.isSome = true ∧ (GetTemplate stT k).2 = none) ∨
      ((GetTemplate stT k).1 = none ∧ (GetTemplate stT k).2.isSome = true)) ∧
    (((GetTeamByKey stM k).1.isSome = true ∧ (GetTeamByKey stM k).2 = none) ∨
      ((GetTeamByKey stM k).1 = none ∧ (GetTeamByKey stM k).2.isSome = true)) :=
  ⟨lookupSlot_exclusive stL k _, lookupSlot_exclusive stW k _,
    lookupSlot_exclusive stT k _, lookupSlot_exclusive stM k _⟩

end BulkCacheModel
